import Mathlib

/-!
Shallow embedding of the turing-chat backend (`src/backend/server.js`, with
the second variant `src/unnamed/part_000` agreeing on all modelled logic).

Modelling conventions:
- message text is a `List Char` (JS strings; `String(text).slice(0, 2000)`
  becomes `List.take 2000`);
- timestamps (`new Date().toISOString()`) are abstracted as `Nat` values,
  ordered as the ISO strings are chronologically ordered;
- the in-memory store (`sessions` Map plus the `globalIndex` counter) is a
  `Store` record threaded explicitly through every handler;
- `Map` iteration/insertion order is modelled by keeping the sessions in a
  list, appending on `sessions.set` of a fresh id;
- the async Gemini call is an explicit adapter argument returning
  `Except Unit (List Char)`: `Except.error` models a thrown exception
  (caught by the route's try/catch), `Except.ok` a returned reply.
-/

namespace TuringChat

/-- Message role: `'user' | 'ai' | 'human'` in the source. -/
inductive Role
  | user
  | ai
  | human
  deriving DecidableEq, Repr

/-- Session condition: `'AI' | 'human'` in the source. -/
inductive Condition
  | AI
  | human
  deriving DecidableEq, Repr

/-- One chat turn: `{ i, role, text, t }` as built by `pushMessage`. -/
structure Message where
  i : Nat
  role : Role
  text : List Char
  t : Nat
  deriving DecidableEq, Repr

/-- One session: `{ id, condition, createdAt, messages, awaitingOperator }`. -/
structure Session where
  id : String
  condition : Condition
  createdAt : Nat
  messages : List Message
  awaitingOperator : Bool
  deriving DecidableEq, Repr

/-- The module-level mutable state: the `sessions` Map and `globalIndex`. -/
structure Store where
  sessions : List Session
  globalIndex : Nat
  deriving DecidableEq, Repr

/-- Initial state: `const sessions = new Map(); let globalIndex = 0;` -/
def initialStore : Store := ⟨[], 0⟩

/-- JS `mode.toUpperCase()`, modelled character-wise (kernel-reducible). -/
def upcase (m : String) : String := String.mk (m.data.map Char.toUpper)

/-- The condition picked by `createSession`: `"AI"` forces AI, `"HUMAN"`
forces human, anything else flips a coin (`Math.random() < 0.5`), modelled
as an explicit boolean input. -/
def pickCondition (mode : String) (coin : Bool) : Condition :=
  if upcase mode = "AI" then Condition.AI
  else if upcase mode = "HUMAN" then Condition.human
  else if coin then Condition.AI else Condition.human

/-- Session creation, `createSession(mode)`. The fresh `nanoid(10)` and the current time come
in as explicit inputs; the new session is added to the Map (appended, since
its id is fresh). -/
def createSession (st : Store) (id : String) (mode : String) (coin : Bool)
    (now : Nat) : Session × Store :=
  let s : Session :=
    { id := id
      condition := pickCondition mode coin
      createdAt := now
      messages := []
      awaitingOperator := false }
  (s, { st with sessions := st.sessions ++ [s] })

/-- Appending a message, `pushMessage(session, role, text)`: builds `{ i: ++globalIndex, role,
text, t }` and appends it; returns the updated session together with the
incremented global counter. Truncation happens at the call sites, exactly
as in the source. -/
def pushMessage (s : Session) (gi : Nat) (role : Role) (text : List Char)
    (now : Nat) : Session × Nat :=
  ({ s with messages := s.messages ++ [⟨gi + 1, role, text, now⟩] }, gi + 1)

/-- Writing the mutated session back into the `sessions` Map. -/
def updateSession (l : List Session) (s' : Session) : List Session :=
  l.map (fun s => if s.id = s'.id then s' else s)

/-- The recomputable flag `isAwaitingOperator(session)`: false unless the condition is `human`
and the last message exists and has role `user`. -/
def isAwaitingOperator (s : Session) : Bool :=
  if s.condition ≠ Condition.human then false
  else
    match s.messages.getLast? with
    | none => false
    | some last => decide (last.role = Role.user)

/-- The history handed to the responder on the AI branch:
`s.messages.filter((m) => m.role !== 'ai')`, computed after the new user
message has been pushed. -/
def chatHistory (s : Session) : List Message :=
  s.messages.filter (fun m => decide (m.role ≠ Role.ai))

/-- A responder adapter: `askGemini(prompt, history)` seen as a function of
the prompt and the history; errors model thrown exceptions. -/
abbrev Adapter := List Char → List Message → Except Unit (List Char)

/-- The stub answer produced by `askGemini` when no `GEMINI_API_KEY` is
configured; it splices the raw prompt into a fixed sentence. -/
def stubReply (prompt : List Char) : List Char :=
  ("🧪 (Stub IA) Me pediste: \"".data) ++ prompt ++
    ("\". Configura GEMINI_API_KEY para usar Gemini.".data)

/-- Behaviour of `askGemini` without an API key: always answers with the stub. -/
def stubAdapter : Adapter := fun prompt _ => Except.ok (stubReply prompt)

/-- Outcome of `POST /api/chat`. -/
inductive ChatResponse
  | missingFields
  | notFound
  | internalError
  | replied (reply : List Char) (queued : Bool)
  | queued
  deriving DecidableEq, Repr

/-- Route `POST /api/chat`: validate inputs, look up the session, push the
truncated user message, then either consult the responder adapter and push
its reply as `ai`, or mark the session as awaiting the operator. -/
def handleChat (st : Store) (sid? : Option String)
    (text? : Option (List Char)) (adapter : Adapter) (now : Nat) :
    ChatResponse × Store :=
  match sid?, text? with
  | some sid, some text =>
    if sid = "" ∨ text = [] then (ChatResponse.missingFields, st)
    else
      match st.sessions.find? (fun s => s.id = sid) with
      | none => (ChatResponse.notFound, st)
      | some s =>
        let s1 := (pushMessage s st.globalIndex Role.user (text.take 2000) now).1
        let st1 : Store := ⟨updateSession st.sessions s1, st.globalIndex + 1⟩
        if s.condition = Condition.AI then
          match adapter text (chatHistory s1) with
          | Except.error _ => (ChatResponse.internalError, st1)
          | Except.ok reply =>
            let s2 := (pushMessage s1 st1.globalIndex Role.ai reply now).1
            (ChatResponse.replied reply false,
             ⟨updateSession st1.sessions s2, st1.globalIndex + 1⟩)
        else
          (ChatResponse.queued,
           ⟨updateSession st1.sessions { s1 with awaitingOperator := true },
            st1.globalIndex⟩)
  | _, _ => (ChatResponse.missingFields, st)

/-- Outcome of `GET /api/messages`. -/
inductive PollResponse
  | notFound
  | ok (items : List Message) (awaitingOperator : Bool)
  deriving DecidableEq, Repr

/-- Route `GET /api/messages`: filter the session's log to `m.i > after` and
report the recomputed awaiting flag; the store is not modified. -/
def pollMessages (st : Store) (sid? : Option String) (after : Nat) :
    PollResponse × Store :=
  match sid?.bind (fun sid => st.sessions.find? (fun s => s.id = sid)) with
  | none => (PollResponse.notFound, st)
  | some s =>
    (PollResponse.ok (s.messages.filter (fun m => decide (after < m.i)))
      (isAwaitingOperator s), st)

/-- Outcome of `POST /api/operator/reply`. -/
inductive ReplyResponse
  | notFound
  | invalidState
  | invalidInput
  | ok
  deriving DecidableEq, Repr

/-- Route `POST /api/operator/reply`: 404 for an unknown session, 400 when the
session is not human-conditioned, 400 when the text is missing/empty;
otherwise push the truncated `human` message, clear `awaitingOperator`,
answer `{ ok: true }`. -/
def operatorReply (st : Store) (sid? : Option String)
    (text? : Option (List Char)) (now : Nat) : ReplyResponse × Store :=
  match sid?.bind (fun sid => st.sessions.find? (fun s => s.id = sid)) with
  | none => (ReplyResponse.notFound, st)
  | some s =>
    if s.condition ≠ Condition.human then (ReplyResponse.invalidState, st)
    else if text?.getD [] = [] then (ReplyResponse.invalidInput, st)
    else
      let s1 := (pushMessage s st.globalIndex Role.human
        ((text?.getD []).take 2000) now).1
      (ReplyResponse.ok,
       ⟨updateSession st.sessions { s1 with awaitingOperator := false },
        st.globalIndex + 1⟩)

/-- One operator-inbox row: `{ sessionId, lastUserText, lastAt }`. -/
structure InboxItem where
  sessionId : String
  lastUserText : List Char
  lastAt : Nat
  deriving DecidableEq, Repr

/-- The inbox row built for one session: the most recent `user` message's
text and time (`[...messages].reverse().find(m => m.role === 'user')`),
falling back to `''` and `createdAt` when there is none. -/
def inboxEntry (s : Session) : InboxItem :=
  match s.messages.reverse.find? (fun m => decide (m.role = Role.user)) with
  | some m => ⟨s.id, m.text, m.t⟩
  | none => ⟨s.id, [], s.createdAt⟩

/-- The unsorted inbox rows: sessions with condition `human` that are
awaiting the operator (both guards appear in the source loop). -/
def collectInbox (l : List Session) : List InboxItem :=
  (l.filter (fun s =>
      decide (s.condition = Condition.human) && isAwaitingOperator s)).map
    inboxEntry

/-- Stable insertion used to model the JS stable sort with comparator
`(a, b) => new Date(b.lastAt) - new Date(a.lastAt)`. -/
def insertByLastAt (x : InboxItem) : List InboxItem → List InboxItem
  | [] => [x]
  | y :: ys =>
    if y.lastAt < x.lastAt then x :: y :: ys else y :: insertByLastAt x ys

/-- Stable sort, descending by `lastAt`. -/
def sortByLastAtDesc : List InboxItem → List InboxItem
  | [] => []
  | x :: xs => insertByLastAt x (sortByLastAtDesc xs)

/-- Route `GET /api/operator/inbox`: a pure read of the store. -/
def operatorInbox (st : Store) : List InboxItem × Store :=
  (sortByLastAtDesc (collectInbox st.sessions), st)

/-- Every message held anywhere in the store. -/
def allMessages (st : Store) : List Message :=
  st.sessions.foldr (fun s acc => s.messages ++ acc) []

/-- One state-mutating boundary operation of the server. Read-only routes
(`/api/messages`, `/debrief`, `/export`, the inbox and transcript views)
are not steps because they return the store unchanged. -/
inductive Step : Store → Store → Prop
  | create (st : Store) (id mode : String) (coin : Bool) (now : Nat)
      (hfresh : ∀ s ∈ st.sessions, s.id ≠ id) :
      Step st (createSession st id mode coin now).2
  | chat (st : Store) (sid? : Option String) (text? : Option (List Char))
      (adapter : Adapter) (now : Nat) :
      Step st (handleChat st sid? text? adapter now).2
  | reply (st : Store) (sid? : Option String) (text? : Option (List Char))
      (now : Nat) :
      Step st (operatorReply st sid? text? now).2

/-- Stores reachable from process start by boundary operations. -/
inductive Reachable : Store → Prop
  | init : Reachable initialStore
  | step {st st' : Store} : Reachable st → Step st st' → Reachable st'

/-- Per-session well-formedness, relative to the global counter:
the cached `awaitingOperator` agrees with the recomputable rule, every
stored index is at most the counter, indices strictly increase along the
log, and every non-`ai` message is within the 2000-character bound. -/
def SessionWF (gi : Nat) (s : Session) : Prop :=
  s.awaitingOperator = isAwaitingOperator s
  ∧ (∀ m ∈ s.messages, m.i ≤ gi)
  ∧ List.Chain' (fun a b => a.i < b.i) s.messages
  ∧ (∀ m ∈ s.messages, m.role ≠ Role.ai → m.text.length ≤ 2000)

/-- Store-wide invariant. -/
def WF (st : Store) : Prop :=
  ∀ s ∈ st.sessions, SessionWF st.globalIndex s

/-- The session after the user-message push in `POST /api/chat`. -/
def userPush (st : Store) (s : Session) (text : List Char) (now : Nat) :
    Session :=
  (pushMessage s st.globalIndex Role.user (text.take 2000) now).1

/-! ### Concrete runs used to exercise the theorems -/

/-- Store holding one freshly created human-conditioned session `"h"`. -/
def demoH : Store := (createSession initialStore "h" "HUMAN" true 0).2

/-- Store `demoH` after the user submitted the text `hi`. -/
def demoH1 : Store :=
  (handleChat demoH (some "h") (some ['h', 'i']) stubAdapter 1).2

/-- The session stored in `demoH1`. -/
def demoSessH1 : Session :=
  ⟨"h", Condition.human, 0, [⟨1, Role.user, ['h', 'i'], 1⟩], true⟩

/-- Store holding one freshly created AI-conditioned session `"a"`. -/
def demoA : Store := (createSession initialStore "a" "AI" true 0).2

/-- The session stored in `demoA`. -/
def demoSessA : Session := ⟨"a", Condition.AI, 0, [], false⟩

/-- Store holding the AI session `"a"` and a human session `"h"`. -/
def demoAH : Store := (createSession demoA "h" "HUMAN" true 5).2

/-- The human session stored in `demoAH`. -/
def demoSessH5 : Session := ⟨"h", Condition.human, 5, [], false⟩

/-- A 2000-character user text. -/
def longText : List Char := List.replicate 2000 'a'

/-- Store `demoA` after the user submitted `longText` with the stub responder. -/
def demoA1 : Store :=
  (handleChat demoA (some "a") (some longText) stubAdapter 1).2

/-- An adapter whose call always throws (network failure, non-2xx status). -/
def failAdapter : Adapter := fun _ _ => Except.error ()

/-! ### Basic lemmas about the store operations -/

theorem mem_updateSession {l : List Session} {s' t : Session} :
    t ∈ updateSession l s' ↔ ∃ u ∈ l, t = if u.id = s'.id then s' else u := by
  simp only [updateSession, List.mem_map]
  constructor
  · rintro ⟨u, hu, rfl⟩; exact ⟨u, hu, rfl⟩
  · rintro ⟨u, hu, rfl⟩; exact ⟨u, hu, rfl⟩

theorem mem_of_mem_updateSession {l : List Session} {s' t : Session}
    (h : t ∈ updateSession l s') : t = s' ∨ t ∈ l := by
  rcases mem_updateSession.1 h with ⟨u, hu, rfl⟩
  split
  · exact Or.inl rfl
  · exact Or.inr hu

theorem sessionWF_mono {g g' : Nat} (hg : g ≤ g') {s : Session}
    (h : SessionWF g s) : SessionWF g' s := by
  obtain ⟨h1, h2, h3, h4⟩ := h
  exact ⟨h1, fun m hm => le_trans (h2 m hm) hg, h3, h4⟩

theorem wf_sessions_update {gi g' : Nat} {l : List Session}
    (hl : ∀ s ∈ l, SessionWF gi s) (hg : gi ≤ g') {s' : Session}
    (hs' : SessionWF g' s') :
    ∀ t ∈ updateSession l s', SessionWF g' t := by
  intro t ht
  rcases mem_of_mem_updateSession ht with rfl | htl
  · exact hs'
  · exact sessionWF_mono hg (hl t htl)

theorem mem_allMessages {st : Store} {m : Message} :
    m ∈ allMessages st ↔ ∃ s ∈ st.sessions, m ∈ s.messages := by
  show m ∈ st.sessions.foldr (fun s acc => s.messages ++ acc) [] ↔ _
  induction st.sessions with
  | nil => simp
  | cons s rest ih => simp [ih]

theorem find?_updateSession {l : List Session} {sid : String} {s s' : Session}
    (hfind : l.find? (fun x => decide (x.id = sid)) = some s)
    (hid : s'.id = s.id) :
    (updateSession l s').find? (fun x => decide (x.id = sid)) = some s' := by
  induction l with
  | nil => simp at hfind
  | cons u rest ih =>
    by_cases hu : u.id = sid
    · rw [List.find?_cons_of_pos _ (by simp [hu])] at hfind
      have heq : u = s := by injection hfind
      subst heq
      have hids : u.id = s'.id := by rw [hid]
      simp only [updateSession, List.map_cons, if_pos hids]
      exact List.find?_cons_of_pos _ (by simp [hid, hu])
    · rw [List.find?_cons_of_neg _ (by simp [hu])] at hfind
      have hids : ¬ u.id = s'.id := by
        rw [hid]
        intro hcontra
        exact hu (hcontra.trans (by
          have := List.find?_some hfind
          simpa using this))
      simp only [updateSession, List.map_cons, if_neg hids]
      rw [List.find?_cons_of_neg _ (by simp [hu])]
      exact ih hfind

theorem option_bind_some {α β : Type} (a : α) (f : α → Option β) :
    (some a).bind f = f a := rfl

theorem updateSession_twice {l : List Session} {s1 s2 : Session}
    (hid : s1.id = s2.id) :
    updateSession (updateSession l s1) s2 = updateSession l s2 := by
  simp only [updateSession, List.map_map]
  apply List.map_congr_left
  intro u _
  by_cases hu : u.id = s2.id
  · simp [Function.comp, hu, hid.symm]
  · have hu1 : ¬ u.id = s1.id := by rw [hid]; exact hu
    simp [Function.comp, hu, hu1]

/-! ### Shape of the handler results, branch by branch -/

theorem handleChat_noSid (st : Store) (text? : Option (List Char))
    (adapter : Adapter) (now : Nat) :
    handleChat st none text? adapter now = (ChatResponse.missingFields, st) := by
  cases text? <;> rfl

theorem handleChat_noText (st : Store) (sid? : Option String)
    (adapter : Adapter) (now : Nat) :
    handleChat st sid? none adapter now = (ChatResponse.missingFields, st) := by
  cases sid? <;> rfl

theorem handleChat_blank {sid : String} {text : List Char} (st : Store)
    (adapter : Adapter) (now : Nat) (h : sid = "" ∨ text = []) :
    handleChat st (some sid) (some text) adapter now =
      (ChatResponse.missingFields, st) := by
  simp only [handleChat]
  rw [if_pos h]

theorem handleChat_notFound {st : Store} {sid : String} {text : List Char}
    (adapter : Adapter) (now : Nat) (hblank : ¬ (sid = "" ∨ text = []))
    (hfind : st.sessions.find? (fun x => x.id = sid) = none) :
    handleChat st (some sid) (some text) adapter now =
      (ChatResponse.notFound, st) := by
  simp only [handleChat]
  rw [if_neg hblank, hfind]

theorem handleChat_ai {st : Store} {sid : String} {text : List Char}
    {s : Session} (adapter : Adapter) (now : Nat)
    (hblank : ¬ (sid = "" ∨ text = []))
    (hfind : st.sessions.find? (fun x => x.id = sid) = some s)
    (hcond : s.condition = Condition.AI) :
    handleChat st (some sid) (some text) adapter now =
      match adapter text (chatHistory (userPush st s text now)) with
      | Except.error _ =>
        (ChatResponse.internalError,
         ⟨updateSession st.sessions (userPush st s text now),
          st.globalIndex + 1⟩)
      | Except.ok reply =>
        (ChatResponse.replied reply false,
         ⟨updateSession (updateSession st.sessions (userPush st s text now))
            (pushMessage (userPush st s text now) (st.globalIndex + 1)
              Role.ai reply now).1,
          st.globalIndex + 2⟩) := by
  simp only [handleChat, userPush]
  rw [if_neg hblank, hfind]
  simp only [if_pos hcond]

theorem handleChat_ai_error {st : Store} {sid : String} {text : List Char}
    {s : Session} {adapter : Adapter} {now : Nat} {e : Unit}
    (hblank : ¬ (sid = "" ∨ text = []))
    (hfind : st.sessions.find? (fun x => x.id = sid) = some s)
    (hcond : s.condition = Condition.AI)
    (hcall : adapter text (chatHistory (userPush st s text now)) =
      Except.error e) :
    handleChat st (some sid) (some text) adapter now =
      (ChatResponse.internalError,
       ⟨updateSession st.sessions (userPush st s text now),
        st.globalIndex + 1⟩) := by
  rw [handleChat_ai adapter now hblank hfind hcond, hcall]

theorem handleChat_ai_ok {st : Store} {sid : String} {text : List Char}
    {s : Session} {adapter : Adapter} {now : Nat} {reply : List Char}
    (hblank : ¬ (sid = "" ∨ text = []))
    (hfind : st.sessions.find? (fun x => x.id = sid) = some s)
    (hcond : s.condition = Condition.AI)
    (hcall : adapter text (chatHistory (userPush st s text now)) =
      Except.ok reply) :
    handleChat st (some sid) (some text) adapter now =
      (ChatResponse.replied reply false,
       ⟨updateSession (updateSession st.sessions (userPush st s text now))
          (pushMessage (userPush st s text now) (st.globalIndex + 1)
            Role.ai reply now).1,
        st.globalIndex + 2⟩) := by
  rw [handleChat_ai adapter now hblank hfind hcond, hcall]

theorem handleChat_human {st : Store} {sid : String} {text : List Char}
    {s : Session} (adapter : Adapter) (now : Nat)
    (hblank : ¬ (sid = "" ∨ text = []))
    (hfind : st.sessions.find? (fun x => x.id = sid) = some s)
    (hcond : ¬ s.condition = Condition.AI) :
    handleChat st (some sid) (some text) adapter now =
      (ChatResponse.queued,
       ⟨updateSession (updateSession st.sessions (userPush st s text now))
          { userPush st s text now with awaitingOperator := true },
        st.globalIndex + 1⟩) := by
  simp only [handleChat, userPush]
  rw [if_neg hblank, hfind]
  simp only [if_neg hcond]

theorem operatorReply_noSid (st : Store) (text? : Option (List Char))
    (now : Nat) :
    operatorReply st none text? now = (ReplyResponse.notFound, st) := rfl

theorem operatorReply_notFound {st : Store} {sid : String}
    (text? : Option (List Char)) (now : Nat)
    (hfind : st.sessions.find? (fun x => x.id = sid) = none) :
    operatorReply st (some sid) text? now = (ReplyResponse.notFound, st) := by
  simp only [operatorReply, option_bind_some]
  rw [hfind]

theorem operatorReply_invalidState {st : Store} {sid : String} {s : Session}
    (text? : Option (List Char)) (now : Nat)
    (hfind : st.sessions.find? (fun x => x.id = sid) = some s)
    (hcond : s.condition ≠ Condition.human) :
    operatorReply st (some sid) text? now = (ReplyResponse.invalidState, st) := by
  simp only [operatorReply, option_bind_some]
  rw [hfind]
  simp only [if_pos hcond]

theorem operatorReply_invalidInput {st : Store} {sid : String} {s : Session}
    {text? : Option (List Char)} (now : Nat)
    (hfind : st.sessions.find? (fun x => x.id = sid) = some s)
    (hcond : s.condition = Condition.human) (htext : text?.getD [] = []) :
    operatorReply st (some sid) text? now = (ReplyResponse.invalidInput, st) := by
  simp only [operatorReply, option_bind_some]
  rw [hfind]
  simp only [if_neg (show ¬ s.condition ≠ Condition.human by simp [hcond]),
    if_pos htext]

theorem operatorReply_ok {st : Store} {sid : String} {s : Session}
    {text : List Char} (now : Nat)
    (hfind : st.sessions.find? (fun x => x.id = sid) = some s)
    (hcond : s.condition = Condition.human) (htext : text ≠ []) :
    operatorReply st (some sid) (some text) now =
      (ReplyResponse.ok,
       ⟨updateSession st.sessions
          { (pushMessage s st.globalIndex Role.human (text.take 2000) now).1
              with awaitingOperator := false },
        st.globalIndex + 1⟩) := by
  simp only [operatorReply, option_bind_some]
  rw [hfind]
  simp only [Option.getD_some,
    if_neg (show ¬ s.condition ≠ Condition.human by simp [hcond]),
    if_neg (show ¬ text = [] from htext)]

/-! ### Preservation of the store invariant -/

theorem mem_of_mem_getLast? {α : Type} {l : List α} {x : α}
    (h : x ∈ l.getLast?) : x ∈ l := by
  rcases List.mem_getLast?_eq_getLast h with ⟨hne, rfl⟩
  exact List.getLast_mem hne

theorem msgs_bound_append {gi : Nat} {l : List Message}
    (h : ∀ m ∈ l, m.i ≤ gi) {msg : Message} (hmsg : msg.i ≤ gi + 1) :
    ∀ m ∈ l ++ [msg], m.i ≤ gi + 1 := by
  intro m hm
  rcases List.mem_append.1 hm with hml | hms
  · exact le_trans (h m hml) (Nat.le_succ gi)
  · rcases List.mem_singleton.1 hms with rfl
    exact hmsg

theorem msgs_chain_append {gi : Nat} {l : List Message}
    (hb : ∀ m ∈ l, m.i ≤ gi)
    (hc : List.Chain' (fun a b => a.i < b.i) l) {msg : Message}
    (hmsg : gi < msg.i) :
    List.Chain' (fun a b => a.i < b.i) (l ++ [msg]) := by
  rw [List.chain'_append]
  refine ⟨hc, List.chain'_singleton msg, ?_⟩
  intro x hx y hy
  rcases Option.mem_def.1 hy with rfl | h
  · exact lt_of_le_of_lt (hb x (mem_of_mem_getLast? hx)) hmsg

theorem msgs_len_append {l : List Message}
    (h : ∀ m ∈ l, m.role ≠ Role.ai → m.text.length ≤ 2000) {msg : Message}
    (hmsg : msg.role ≠ Role.ai → msg.text.length ≤ 2000) :
    ∀ m ∈ l ++ [msg], m.role ≠ Role.ai → m.text.length ≤ 2000 := by
  intro m hm
  rcases List.mem_append.1 hm with hml | hms
  · exact h m hml
  · rcases List.mem_singleton.1 hms with rfl
    exact hmsg

theorem take_text_le (text : List Char) : (text.take 2000).length ≤ 2000 := by
  simp [List.length_take]

theorem isAwaiting_of_not_human {s : Session}
    (h : s.condition ≠ Condition.human) : isAwaitingOperator s = false := by
  unfold isAwaitingOperator
  rw [if_pos h]

theorem isAwaiting_push (s : Session) (gi : Nat) (role : Role)
    (text : List Char) (now : Nat) :
    isAwaitingOperator ((pushMessage s gi role text now).1) =
      if s.condition = Condition.human then decide (role = Role.user)
      else false := by
  by_cases h : s.condition = Condition.human <;>
    simp [isAwaitingOperator, pushMessage, List.getLast?_concat, h]

theorem isAwaiting_setAwait (s : Session) (b : Bool) :
    isAwaitingOperator { s with awaitingOperator := b } =
      isAwaitingOperator s := rfl

theorem isAwaiting_nil {s : Session} (h : s.messages = []) :
    isAwaitingOperator s = false := by
  unfold isAwaitingOperator
  rw [h]
  split <;> rfl

theorem wf_initialStore : WF initialStore := by
  intro s hs
  simp [initialStore] at hs

theorem wf_step {st st' : Store} (hwf : WF st) (h : Step st st') : WF st' := by
  cases h with
  | create id mode coin now hfresh =>
    intro t ht
    simp only [createSession, List.mem_append, List.mem_singleton] at ht
    rcases ht with ht | rfl
    · exact hwf t ht
    · exact ⟨(isAwaiting_nil rfl).symm, by simp, by simp, by simp⟩
  | reply sid? text? now =>
    rcases sid? with _ | sid
    · rw [operatorReply_noSid]; exact hwf
    rcases hfind : st.sessions.find? (fun x => x.id = sid) with _ | s
    · rw [operatorReply_notFound text? now hfind]; exact hwf
    by_cases hcond : s.condition = Condition.human
    · rcases htext : text? with _ | text
      · rw [operatorReply_invalidInput now hfind hcond (by simp)]; exact hwf
      by_cases hemp : text = []
      · rw [operatorReply_invalidInput now hfind hcond (by simp [hemp])]
        exact hwf
      · rw [operatorReply_ok now hfind hcond hemp]
        obtain ⟨hc1, hc2, hc3, hc4⟩ := hwf s (List.mem_of_find?_eq_some hfind)
        refine wf_sessions_update hwf (Nat.le_succ _) ?_
        refine ⟨?_, ?_, ?_, ?_⟩
        · rw [isAwaiting_setAwait, isAwaiting_push]
          simp [hcond]
        · exact msgs_bound_append hc2 (le_refl _)
        · exact msgs_chain_append hc2 hc3 (Nat.lt_succ_self _)
        · exact msgs_len_append hc4 (fun _ => take_text_le text)
    · rw [operatorReply_invalidState text? now hfind hcond]; exact hwf
  | chat sid? text? adapter now =>
    rcases sid? with _ | sid
    · rw [handleChat_noSid]; exact hwf
    rcases text? with _ | text
    · rw [handleChat_noText]; exact hwf
    by_cases hblank : sid = "" ∨ text = []
    · rw [handleChat_blank st adapter now hblank]; exact hwf
    rcases hfind : st.sessions.find? (fun x => x.id = sid) with _ | s
    · rw [handleChat_notFound adapter now hblank hfind]; exact hwf
    obtain ⟨hc1, hc2, hc3, hc4⟩ := hwf s (List.mem_of_find?_eq_some hfind)
    by_cases hcond : s.condition = Condition.AI
    · have hnothuman : s.condition ≠ Condition.human := by
        rw [hcond]; intro hco; cases hco
      have hflag : s.awaitingOperator = false := by
        rw [hc1, isAwaiting_of_not_human hnothuman]
      rcases hcall : adapter text (chatHistory (userPush st s text now)) with e | reply
      · -- adapter threw: only the user message was appended
        rw [handleChat_ai_error hblank hfind hcond hcall]
        refine wf_sessions_update hwf (Nat.le_succ _) ?_
        refine ⟨?_, ?_, ?_, ?_⟩
        · rw [userPush, isAwaiting_push, pushMessage]
          simp [hflag, hnothuman]
        · exact msgs_bound_append hc2 (le_refl _)
        · exact msgs_chain_append hc2 hc3 (Nat.lt_succ_self _)
        · exact msgs_len_append hc4 (fun _ => take_text_le text)
      · -- adapter answered: user message plus ai message were appended
        rw [handleChat_ai_ok hblank hfind hcond hcall,
          updateSession_twice (by rfl)]
        refine wf_sessions_update hwf
          (show st.globalIndex ≤ st.globalIndex + 2 by omega) ?_
        refine ⟨?_, ?_, ?_, ?_⟩
        · rw [isAwaiting_push, userPush, pushMessage, pushMessage]
          simp [hflag, hnothuman]
        · exact msgs_bound_append (msgs_bound_append hc2 (le_refl _))
            (le_refl _)
        · refine msgs_chain_append
            (msgs_bound_append hc2 (le_refl _))
            (msgs_chain_append hc2 hc3 (Nat.lt_succ_self _))
            (Nat.lt_succ_self _)
        · refine msgs_len_append
            (msgs_len_append hc4 (fun _ => take_text_le text)) ?_
          intro hr
          exact absurd rfl hr
    · rw [handleChat_human adapter now hblank hfind hcond]
      have hhuman : s.condition = Condition.human := by
        rcases hco : s.condition
        · exact absurd hco hcond
        · rfl
      rw [updateSession_twice (by rfl)]
      refine wf_sessions_update hwf (Nat.le_succ _) ?_
      refine ⟨?_, ?_, ?_, ?_⟩
      · rw [isAwaiting_setAwait, userPush, isAwaiting_push]
        simp [hhuman]
      · exact msgs_bound_append hc2 (le_refl _)
      · exact msgs_chain_append hc2 hc3 (Nat.lt_succ_self _)
      · exact msgs_len_append hc4 (fun _ => take_text_le text)

theorem wf_reachable {st : Store} (h : Reachable st) : WF st := by
  induction h with
  | init => exact wf_initialStore
  | step _ hstep ih => exact wf_step ih hstep

/-! ### Reachability of the concrete runs -/

theorem reachable_demoH : Reachable demoH :=
  Reachable.step Reachable.init
    (Step.create initialStore "h" "HUMAN" true 0
      (by intro s hs; simp [initialStore] at hs))

theorem reachable_demoH1 : Reachable demoH1 :=
  Reachable.step reachable_demoH
    (Step.chat demoH (some "h") (some ['h', 'i']) stubAdapter 1)

theorem reachable_demoA : Reachable demoA :=
  Reachable.step Reachable.init
    (Step.create initialStore "a" "AI" true 0
      (by intro s hs; simp [initialStore] at hs))

theorem reachable_demoA1 : Reachable demoA1 :=
  Reachable.step reachable_demoA
    (Step.chat demoA (some "a") (some longText) stubAdapter 1)

theorem reachable_demoAH : Reachable demoAH :=
  Reachable.step reachable_demoA
    (Step.create demoA "h" "HUMAN" true 5 (by decide))

/-! ### The inbox sort -/

theorem insertByLastAt_perm (x : InboxItem) (l : List InboxItem) :
    List.Perm (insertByLastAt x l) (x :: l) := by
  induction l with
  | nil => exact List.Perm.refl _
  | cons y ys ih =>
    unfold insertByLastAt
    split
    · exact List.Perm.refl _
    · exact List.Perm.trans (List.Perm.cons y ih) (List.Perm.swap x y ys)

theorem sortByLastAtDesc_perm (l : List InboxItem) :
    List.Perm (sortByLastAtDesc l) l := by
  induction l with
  | nil => exact List.Perm.refl _
  | cons x xs ih =>
    exact List.Perm.trans (insertByLastAt_perm x (sortByLastAtDesc xs))
      (List.Perm.cons x ih)

theorem insertByLastAt_head (x : InboxItem) (l : List InboxItem) :
    (insertByLastAt x l).head? = some x ∨
      (insertByLastAt x l).head? = l.head? := by
  cases l with
  | nil => exact Or.inl rfl
  | cons y ys =>
    unfold insertByLastAt
    split
    · exact Or.inl rfl
    · exact Or.inr rfl

theorem insertByLastAt_sorted (x : InboxItem) {l : List InboxItem}
    (hl : List.Chain' (fun a b => b.lastAt ≤ a.lastAt) l) :
    List.Chain' (fun a b => b.lastAt ≤ a.lastAt) (insertByLastAt x l) := by
  induction l with
  | nil => exact List.chain'_singleton x
  | cons y ys ih =>
    rw [List.chain'_cons'] at hl
    obtain ⟨hy, hys⟩ := hl
    unfold insertByLastAt
    split
    · rename_i hlt
      rw [List.chain'_cons']
      refine ⟨fun h hh => ?_, ?_⟩
      · simp only [List.head?_cons, Option.mem_def, Option.some_inj] at hh
        subst hh
        exact le_of_lt hlt
      · rw [List.chain'_cons']
        exact ⟨hy, hys⟩
    · rename_i hnlt
      rw [List.chain'_cons']
      refine ⟨fun h hh => ?_, ih hys⟩
      rcases insertByLastAt_head x ys with hc | hc
      · rw [hc] at hh
        simp only [Option.mem_def, Option.some_inj] at hh
        subst hh
        exact le_of_not_lt hnlt
      · rw [hc] at hh
        exact hy h hh

theorem sortByLastAtDesc_sorted (l : List InboxItem) :
    List.Chain' (fun a b => b.lastAt ≤ a.lastAt) (sortByLastAtDesc l) := by
  induction l with
  | nil => exact List.chain'_nil
  | cons x xs ih => exact insertByLastAt_sorted x ih

/-! ### Freshly appended messages carry a strictly larger index -/

theorem fresh_messages_big {st st' : Store} (hstep : Step st st') :
    ∀ m' ∈ allMessages st', m' ∉ allMessages st → st.globalIndex < m'.i := by
  cases hstep with
  | create id mode coin now hfresh =>
    intro m' hm' hnot
    exfalso
    rcases mem_allMessages.1 hm' with ⟨u, hu, hmu⟩
    simp only [createSession, List.mem_append, List.mem_singleton] at hu
    rcases hu with hu | rfl
    · exact hnot (mem_allMessages.2 ⟨u, hu, hmu⟩)
    · simp at hmu
  | reply sid? text? now =>
    rcases sid? with _ | sid
    · rw [operatorReply_noSid]
      intro m' hm' hnot
      exact absurd hm' hnot
    rcases hfind : st.sessions.find? (fun x => x.id = sid) with _ | s
    · rw [operatorReply_notFound text? now hfind]
      intro m' hm' hnot
      exact absurd hm' hnot
    by_cases hcond : s.condition = Condition.human
    · rcases htext : text? with _ | text
      · rw [operatorReply_invalidInput now hfind hcond (by simp)]
        intro m' hm' hnot
        exact absurd hm' hnot
      by_cases hemp : text = []
      · rw [operatorReply_invalidInput now hfind hcond (by simp [hemp])]
        intro m' hm' hnot
        exact absurd hm' hnot
      · rw [operatorReply_ok now hfind hcond hemp]
        intro m' hm' hnot
        rcases mem_allMessages.1 hm' with ⟨u, hu, hmu⟩
        rcases mem_of_mem_updateSession hu with rfl | hul
        · rcases List.mem_append.1 hmu with hold | hnew
          · exact absurd (mem_allMessages.2
              ⟨s, List.mem_of_find?_eq_some hfind, hold⟩) hnot
          · rcases List.mem_singleton.1 hnew with rfl
            exact Nat.lt_succ_self _
        · exact absurd (mem_allMessages.2 ⟨u, hul, hmu⟩) hnot
    · rw [operatorReply_invalidState text? now hfind hcond]
      intro m' hm' hnot
      exact absurd hm' hnot
  | chat sid? text? adapter now =>
    rcases sid? with _ | sid
    · rw [handleChat_noSid]
      intro m' hm' hnot
      exact absurd hm' hnot
    rcases text? with _ | text
    · rw [handleChat_noText]
      intro m' hm' hnot
      exact absurd hm' hnot
    by_cases hblank : sid = "" ∨ text = []
    · rw [handleChat_blank st adapter now hblank]
      intro m' hm' hnot
      exact absurd hm' hnot
    rcases hfind : st.sessions.find? (fun x => x.id = sid) with _ | s
    · rw [handleChat_notFound adapter now hblank hfind]
      intro m' hm' hnot
      exact absurd hm' hnot
    by_cases hcond : s.condition = Condition.AI
    · rcases hcall : adapter text (chatHistory (userPush st s text now))
        with e | reply
      · rw [handleChat_ai_error hblank hfind hcond hcall]
        intro m' hm' hnot
        rcases mem_allMessages.1 hm' with ⟨u, hu, hmu⟩
        rcases mem_of_mem_updateSession hu with rfl | hul
        · rcases List.mem_append.1 hmu with hold | hnew
          · exact absurd (mem_allMessages.2
              ⟨s, List.mem_of_find?_eq_some hfind, hold⟩) hnot
          · rcases List.mem_singleton.1 hnew with rfl
            exact Nat.lt_succ_self _
        · exact absurd (mem_allMessages.2 ⟨u, hul, hmu⟩) hnot
      · rw [handleChat_ai_ok hblank hfind hcond hcall,
          updateSession_twice (by rfl)]
        intro m' hm' hnot
        rcases mem_allMessages.1 hm' with ⟨u, hu, hmu⟩
        rcases mem_of_mem_updateSession hu with rfl | hul
        · rcases List.mem_append.1 hmu with hmid | hnew
          · rcases List.mem_append.1 hmid with hold | hnew1
            · exact absurd (mem_allMessages.2
                ⟨s, List.mem_of_find?_eq_some hfind, hold⟩) hnot
            · rcases List.mem_singleton.1 hnew1 with rfl
              exact Nat.lt_succ_self _
          · rcases List.mem_singleton.1 hnew with rfl
            exact Nat.lt_succ_of_lt (Nat.lt_succ_self _)
        · exact absurd (mem_allMessages.2 ⟨u, hul, hmu⟩) hnot
    · rw [handleChat_human adapter now hblank hfind hcond,
        updateSession_twice (by rfl)]
      intro m' hm' hnot
      rcases mem_allMessages.1 hm' with ⟨u, hu, hmu⟩
      rcases mem_of_mem_updateSession hu with rfl | hul
      · rcases List.mem_append.1 hmu with hold | hnew
        · exact absurd (mem_allMessages.2
            ⟨s, List.mem_of_find?_eq_some hfind, hold⟩) hnot
        · rcases List.mem_singleton.1 hnew with rfl
          exact Nat.lt_succ_self _
      · exact absurd (mem_allMessages.2 ⟨u, hul, hmu⟩) hnot

/-! ### The claims -/

/-- C1: in every reachable store, the cached `awaitingOperator` field agrees
with the recomputable rule: it is false whenever the condition is AI, and
for a human-conditioned session it is true exactly when the log is
non-empty and its last message has role `user`. -/
theorem C1_awaiting_operator_invariant (st : Store) (hreach : Reachable st)
    (s : Session) (hs : s ∈ st.sessions) :
    s.awaitingOperator = isAwaitingOperator s
  ∧ (s.condition = Condition.AI → s.awaitingOperator = false)
  ∧ (s.condition = Condition.human →
      (s.awaitingOperator = true ↔
        s.messages ≠ [] ∧
          s.messages.getLast?.map Message.role = some Role.user)) := by
  have hc1 := (wf_reachable hreach s hs).1
  refine ⟨hc1, ?_, ?_⟩
  · intro hAI
    rw [hc1]
    apply isAwaiting_of_not_human
    rw [hAI]
    intro hco
    cases hco
  · intro hH
    rw [hc1]
    unfold isAwaitingOperator
    rw [if_neg (by simp [hH])]
    rcases hlast : s.messages.getLast? with _ | last
    · constructor
      · intro hco
        cases hco
      · rintro ⟨-, hmap⟩
        simp at hmap
    · simp only [Option.map_some', decide_eq_true_eq, Option.some_inj]
      constructor
      · intro hrole
        refine ⟨?_, by rw [hrole]⟩
        intro hnil
        rw [hnil] at hlast
        cases hlast
      · rintro ⟨-, hmap⟩
        exact hmap

/-- C1 witness: the human session of `demoH1`, whose last message is the
user turn `hi`, satisfies the invariant with `awaitingOperator = true`. -/
theorem C1_witness :
    demoSessH1.awaitingOperator = isAwaitingOperator demoSessH1
  ∧ (demoSessH1.condition = Condition.AI →
      demoSessH1.awaitingOperator = false)
  ∧ (demoSessH1.condition = Condition.human →
      (demoSessH1.awaitingOperator = true ↔
        demoSessH1.messages ≠ [] ∧
          demoSessH1.messages.getLast?.map Message.role =
            some Role.user)) :=
  C1_awaiting_operator_invariant demoH1 reachable_demoH1 demoSessH1
    (by decide)

/-- C2: on the AI branch of `POST /api/chat`, the history handed to the
responder contains only `user` and `human` turns (no `ai` turns), and the
handler consults the adapter exactly at the new raw text as prompt and that
history: two adapters agreeing there produce identical outcomes. -/
theorem C2_ai_history_excludes_ai (st : Store) (sid : String)
    (text : List Char) (now : Nat) (s : Session)
    (hblank : ¬ (sid = "" ∨ text = []))
    (hfind : st.sessions.find? (fun x => x.id = sid) = some s)
    (hcond : s.condition = Condition.AI) :
    (∀ m ∈ chatHistory (userPush st s text now),
        m.role = Role.user ∨ m.role = Role.human)
  ∧ ∀ a1 a2 : Adapter,
      a1 text (chatHistory (userPush st s text now)) =
        a2 text (chatHistory (userPush st s text now)) →
      handleChat st (some sid) (some text) a1 now =
        handleChat st (some sid) (some text) a2 now := by
  constructor
  · intro m hm
    have hne := (List.mem_filter.1 hm).2
    simp only [decide_eq_true_eq] at hne
    rcases hr : m.role
    · exact Or.inl rfl
    · exact absurd hr hne
    · exact Or.inr rfl
  · intro a1 a2 heq
    rw [handleChat_ai a1 now hblank hfind hcond,
      handleChat_ai a2 now hblank hfind hcond, heq]

/-- C2 witness: for the fresh AI session `"a"` and text `hi`, the single
history entry is the user turn itself, and two extensionally equal
adapters give the same outcome. -/
theorem C2_witness :
    ((⟨1, Role.user, ['h', 'i'], 1⟩ : Message).role = Role.user ∨
      (⟨1, Role.user, ['h', 'i'], 1⟩ : Message).role = Role.human)
  ∧ handleChat demoA (some "a") (some ['h', 'i']) stubAdapter 1 =
      handleChat demoA (some "a") (some ['h', 'i'])
        (fun p h => stubAdapter p h) 1 :=
  ⟨(C2_ai_history_excludes_ai demoA "a" ['h', 'i'] 1 demoSessA (by decide)
      (by decide) rfl).1 ⟨1, Role.user, ['h', 'i'], 1⟩ (by decide),
   (C2_ai_history_excludes_ai demoA "a" ['h', 'i'] 1 demoSessA (by decide)
      (by decide) rfl).2 stubAdapter (fun p h => stubAdapter p h) rfl⟩

/-- C3: a boundary step from a reachable store gives every freshly
appended message an index strictly greater than every previously stored
index (single process-wide counter), and polling returns exactly the
session's messages with index above the cursor, as an order-preserving
sublist, never one at or below the cursor. -/
theorem C3_global_sequence_and_poll (st st' : Store) (hreach : Reachable st)
    (hstep : Step st st') :
    (∀ m' ∈ allMessages st', m' ∉ allMessages st →
        ∀ m ∈ allMessages st, m.i < m'.i)
  ∧ (∀ sid s, st.sessions.find? (fun x => x.id = sid) = some s →
      ∀ cursor : Nat,
        (pollMessages st (some sid) cursor).1 =
          PollResponse.ok
            (s.messages.filter (fun m => decide (cursor < m.i)))
            (isAwaitingOperator s)
        ∧ (∀ m, m ∈ s.messages.filter (fun m => decide (cursor < m.i)) ↔
            m ∈ s.messages ∧ cursor < m.i)
        ∧ (s.messages.filter (fun m => decide (cursor < m.i))).Sublist
            s.messages) := by
  constructor
  · intro m' hm' hnot m hm
    have hle : m.i ≤ st.globalIndex := by
      rcases mem_allMessages.1 hm with ⟨u, hu, hmu⟩
      exact (wf_reachable hreach u hu).2.1 m hmu
    exact lt_of_le_of_lt hle (fresh_messages_big hstep m' hm' hnot)
  · intro sid s hfind cursor
    refine ⟨?_, ?_, List.filter_sublist s.messages⟩
    · simp only [pollMessages, option_bind_some]
      rw [hfind]
    · intro m
      rw [List.mem_filter]
      simp

/-- C3 witness: polling the one-message session of `demoH1` from cursor 0
returns exactly its user message with the awaiting flag. -/
theorem C3_witness :
    (pollMessages demoH1 (some "h") 0).1 =
      PollResponse.ok
        (demoSessH1.messages.filter (fun m => decide (0 < m.i)))
        (isAwaitingOperator demoSessH1) :=
  (((C3_global_sequence_and_poll demoH1
      (operatorReply demoH1 (some "h") (some ['o', 'k']) 2).2
      reachable_demoH1
      (Step.reply demoH1 (some "h") (some ['o', 'k']) 2)).2
    "h" demoSessH1 (by decide)) 0).1

/-- C4 (amended): in every reachable store, every stored message whose
role is not `ai` has text of length at most 2000. The `ai`-role replies
are appended without truncation (see `C4_counterexample`). -/
theorem C4_non_ai_text_truncated (st : Store) (hreach : Reachable st) :
    ∀ m ∈ allMessages st, m.role ≠ Role.ai → m.text.length ≤ 2000 := by
  intro m hm
  rcases mem_allMessages.1 hm with ⟨u, hu, hmu⟩
  exact (wf_reachable hreach u hu).2.2.2 m hmu

/-- C4 counterexample: the claim that every stored message has text of
length at most 2000 fails on the reachable store `demoA1`, where the stub
responder's `ai` reply embeds the raw 2000-character prompt and exceeds
the bound. -/
theorem C4_counterexample :
    ¬ ∀ st : Store, Reachable st →
        ∀ m ∈ allMessages st, m.text.length ≤ 2000 := by
  intro h
  have hs1 : demoA.sessions.find? (fun x => x.id = "a") = some demoSessA := by
    decide
  have hrw : demoA1 =
      ⟨updateSession (updateSession demoA.sessions
          (userPush demoA demoSessA longText 1))
        (pushMessage (userPush demoA demoSessA longText 1) 1 Role.ai
          (stubReply longText) 1).1,
       2⟩ := by
    show (handleChat demoA (some "a") (some longText) stubAdapter 1).2 = _
    rw [handleChat_ai_ok (by decide) hs1 rfl rfl]
    rfl
  have hmem :
      (pushMessage (userPush demoA demoSessA longText 1) 1 Role.ai
        (stubReply longText) 1).1 ∈ demoA1.sessions := by
    rw [hrw]
    refine mem_updateSession.2
      ⟨userPush demoA demoSessA longText 1, ?_, by rw [if_pos (by rfl)]⟩
    exact mem_updateSession.2 ⟨demoSessA, by decide, by rw [if_pos (by rfl)]⟩
  have hmsg :
      (⟨2, Role.ai, stubReply longText, 1⟩ : Message) ∈
        (pushMessage (userPush demoA demoSessA longText 1) 1 Role.ai
          (stubReply longText) 1).1.messages :=
    List.mem_append.2 (Or.inr (List.mem_singleton.2 rfl))
  have hai := h demoA1 reachable_demoA1 ⟨2, Role.ai, stubReply longText, 1⟩
    (mem_allMessages.2 ⟨_, hmem, hmsg⟩)
  have hlen : 2000 < (stubReply longText).length := by
    simp only [stubReply, longText, List.length_append, List.length_replicate]
    decide
  exact absurd hai (not_le.2 hlen)

/-- C4 witness: the stored user message of `demoH1` is within the bound. -/
theorem C4_witness :
    (⟨1, Role.user, ['h', 'i'], 1⟩ : Message).text.length ≤ 2000 :=
  C4_non_ai_text_truncated demoH1 reachable_demoH1
    ⟨1, Role.user, ['h', 'i'], 1⟩ (by decide) (by decide)

/-- C5: `operatorReply` answers `notFound` for an unknown session,
`invalidState` for a non-human session, `invalidInput` for empty text,
and on success appends exactly one `human` message (truncated), clears
`awaitingOperator`, bumps the counter once, and returns a bare `ok`. -/
theorem C5_operator_reply_contract (st : Store) (sid : String)
    (text : List Char) (now : Nat) :
    (st.sessions.find? (fun x => x.id = sid) = none →
        operatorReply st (some sid) (some text) now =
          (ReplyResponse.notFound, st))
  ∧ (∀ s, st.sessions.find? (fun x => x.id = sid) = some s →
        s.condition ≠ Condition.human →
        operatorReply st (some sid) (some text) now =
          (ReplyResponse.invalidState, st))
  ∧ (∀ s, st.sessions.find? (fun x => x.id = sid) = some s →
        s.condition = Condition.human →
        operatorReply st (some sid) (some []) now =
          (ReplyResponse.invalidInput, st))
  ∧ (∀ s, st.sessions.find? (fun x => x.id = sid) = some s →
        s.condition = Condition.human → text ≠ [] →
        operatorReply st (some sid) (some text) now =
          (ReplyResponse.ok,
           ⟨updateSession st.sessions
              ⟨s.id, s.condition, s.createdAt,
               s.messages ++
                 [⟨st.globalIndex + 1, Role.human, text.take 2000, now⟩],
               false⟩,
            st.globalIndex + 1⟩)) := by
  refine ⟨?_, ?_, ?_, ?_⟩
  · intro hfind
    exact operatorReply_notFound (some text) now hfind
  · intro s hfind hcond
    exact operatorReply_invalidState (some text) now hfind hcond
  · intro s hfind hcond
    exact operatorReply_invalidInput now hfind hcond (by simp)
  · intro s hfind hcond htext
    rw [operatorReply_ok now hfind hcond htext]
    rfl

/-- C5 witness: the four branches exercised on the two-session store
`demoAH` (unknown id `zz`, the AI session `a`, the human session `h`). -/
theorem C5_witness :
    operatorReply demoAH (some "zz") (some ['x']) 9 =
      (ReplyResponse.notFound, demoAH)
  ∧ operatorReply demoAH (some "a") (some ['x']) 9 =
      (ReplyResponse.invalidState, demoAH)
  ∧ operatorReply demoAH (some "h") (some []) 9 =
      (ReplyResponse.invalidInput, demoAH)
  ∧ operatorReply demoAH (some "h") (some ['o', 'k']) 9 =
      (ReplyResponse.ok,
       ⟨[demoSessA, ⟨"h", Condition.human, 5,
          [⟨1, Role.human, ['o', 'k'], 9⟩], false⟩], 1⟩) :=
  ⟨(C5_operator_reply_contract demoAH "zz" ['x'] 9).1 (by decide),
   (C5_operator_reply_contract demoAH "a" ['x'] 9).2.1 demoSessA
     (by decide) (by decide),
   (C5_operator_reply_contract demoAH "h" ['x'] 9).2.2.1 demoSessH5
     (by decide) rfl,
   (C5_operator_reply_contract demoAH "h" ['o', 'k'] 9).2.2.2 demoSessH5
     (by decide) rfl (by decide)⟩

/-- C6: when the responder adapter throws on an AI session, the chat
handler reports an internal error, the already-appended `user` message is
kept (the counter was bumped exactly once for it), and no `ai` message is
appended: the session's new log is the old one plus the user turn only. -/
theorem C6_adapter_failure_keeps_user (st : Store) (sid : String)
    (text : List Char) (now : Nat) (s : Session) (adapter : Adapter)
    (hblank : ¬ (sid = "" ∨ text = []))
    (hfind : st.sessions.find? (fun x => x.id = sid) = some s)
    (hcond : s.condition = Condition.AI)
    (hfail : adapter text (chatHistory (userPush st s text now)) =
      Except.error ()) :
    handleChat st (some sid) (some text) adapter now =
      (ChatResponse.internalError,
       ⟨updateSession st.sessions
          ⟨s.id, s.condition, s.createdAt,
           s.messages ++
             [⟨st.globalIndex + 1, Role.user, text.take 2000, now⟩],
           s.awaitingOperator⟩,
        st.globalIndex + 1⟩)
  ∧ (handleChat st (some sid) (some text) adapter now).2.sessions.find?
      (fun x => x.id = sid) =
      some ⟨s.id, s.condition, s.createdAt,
        s.messages ++
          [⟨st.globalIndex + 1, Role.user, text.take 2000, now⟩],
        s.awaitingOperator⟩ := by
  have hmain := handleChat_ai_error hblank hfind hcond hfail
  constructor
  · exact hmain
  · rw [hmain]
    exact find?_updateSession hfind rfl

/-- C6 witness: the failing adapter on the fresh AI session `a` yields an
internal error with the user turn retained and no `ai` turn. -/
theorem C6_witness :
    handleChat demoA (some "a") (some ['h', 'i']) failAdapter 1 =
      (ChatResponse.internalError,
       ⟨[⟨"a", Condition.AI, 0, [⟨1, Role.user, ['h', 'i'], 1⟩], false⟩],
        1⟩)
  ∧ ((handleChat demoA (some "a") (some ['h', 'i']) failAdapter 1).2).sessions.find?
      (fun x => x.id = "a") =
      some ⟨"a", Condition.AI, 0, [⟨1, Role.user, ['h', 'i'], 1⟩], false⟩ :=
  C6_adapter_failure_keeps_user demoA "a" ['h', 'i'] 1 demoSessA failAdapter
    (by decide) (by decide) rfl rfl

/-- C7: submitting a chat message with missing or empty text fails with
the missing-fields error and returns the store exactly as it was: no
message appended anywhere and the global counter unchanged. -/
theorem C7_missing_text_no_effect (st : Store) (sid? : Option String)
    (adapter : Adapter) (now : Nat) :
    handleChat st sid? none adapter now = (ChatResponse.missingFields, st)
  ∧ ∀ sid, handleChat st (some sid) (some []) adapter now =
      (ChatResponse.missingFields, st) :=
  ⟨handleChat_noText st sid? adapter now,
   fun _ => handleChat_blank st adapter now (Or.inr rfl)⟩

/-- C8: polling is a pure, idempotent read: it returns the store
untouched, and an immediate second poll with the same cursor gives the
identical response. -/
theorem C8_poll_idempotent (st : Store) (sid? : Option String)
    (after : Nat) :
    (pollMessages st sid? after).2 = st
  ∧ pollMessages ((pollMessages st sid? after).2) sid? after =
      pollMessages st sid? after := by
  have h2 : (pollMessages st sid? after).2 = st := by
    unfold pollMessages
    rcases hb : sid?.bind (fun sid => st.sessions.find? (fun s => s.id = sid))
      with _ | s <;> rw [hb]
  exact ⟨h2, by rw [h2]⟩

/-- C9: the operator inbox is a pure read listing exactly the
human-conditioned sessions whose `awaitingOperator` flag is set, each as
the entry built from its most recent `user` message (falling back to the
creation time), sorted descending by that timestamp. -/
theorem C9_inbox_spec (st : Store) (hreach : Reachable st) :
    (operatorInbox st).2 = st
  ∧ (∀ item, item ∈ (operatorInbox st).1 ↔
      ∃ s ∈ st.sessions, s.condition = Condition.human ∧
        s.awaitingOperator = true ∧ item = inboxEntry s)
  ∧ List.Chain' (fun a b => b.lastAt ≤ a.lastAt) (operatorInbox st).1 := by
  have hwf := wf_reachable hreach
  refine ⟨rfl, ?_, sortByLastAtDesc_sorted _⟩
  intro item
  have hperm := sortByLastAtDesc_perm (collectInbox st.sessions)
  constructor
  · intro hin
    have hin2 : item ∈ collectInbox st.sessions := hperm.mem_iff.1 hin
    unfold collectInbox at hin2
    rcases List.mem_map.1 hin2 with ⟨s, hsf, rfl⟩
    have hs := List.mem_filter.1 hsf
    have hp := hs.2
    simp only [Bool.and_eq_true, decide_eq_true_eq] at hp
    refine ⟨s, hs.1, hp.1, ?_, rfl⟩
    rw [(hwf s hs.1).1, hp.2]
  · rintro ⟨s, hsmem, hcond, hawait, rfl⟩
    apply hperm.mem_iff.2
    unfold collectInbox
    refine List.mem_map.2 ⟨s, List.mem_filter.2 ⟨hsmem, ?_⟩, rfl⟩
    simp only [Bool.and_eq_true, decide_eq_true_eq]
    refine ⟨hcond, ?_⟩
    rw [← (hwf s hsmem).1]
    exact hawait

/-- C9 witness: the inbox of `demoH1` contains the entry for the awaiting
human session `h`, carrying its user message `hi` and timestamp. -/
theorem C9_witness :
    (⟨"h", ['h', 'i'], 1⟩ : InboxItem) ∈ (operatorInbox demoH1).1 :=
  ((C9_inbox_spec demoH1 reachable_demoH1).2.1 ⟨"h", ['h', 'i'], 1⟩).2
    ⟨demoSessH1, by decide, rfl, rfl, by decide⟩

/-- C10: replying to a human session whose `awaitingOperator` flag is
false still succeeds: the `human` message is appended, the flag stays
false, and a bare `ok` is returned — no error path exists for replying
with no outstanding user turn. -/
theorem C10_reply_without_outstanding (st : Store) (sid : String)
    (text : List Char) (now : Nat) (s : Session)
    (hfind : st.sessions.find? (fun x => x.id = sid) = some s)
    (hcond : s.condition = Condition.human)
    (hidle : s.awaitingOperator = false) (htext : text ≠ []) :
    (operatorReply st (some sid) (some text) now).1 = ReplyResponse.ok
  ∧ (operatorReply st (some sid) (some text) now).2.sessions.find?
      (fun x => x.id = sid) =
      some ⟨s.id, s.condition, s.createdAt,
        s.messages ++
          [⟨st.globalIndex + 1, Role.human, text.take 2000, now⟩],
        false⟩ := by
  rw [operatorReply_ok now hfind hcond htext]
  exact ⟨rfl, find?_updateSession hfind rfl⟩

/-- C10 witness: the idle human session `h` of `demoAH` (no messages,
flag false) accepts the operator reply `ok`. -/
theorem C10_witness :
    (operatorReply demoAH (some "h") (some ['o', 'k']) 9).1 =
      ReplyResponse.ok
  ∧ (operatorReply demoAH (some "h") (some ['o', 'k']) 9).2.sessions.find?
      (fun x => x.id = "h") =
      some ⟨"h", Condition.human, 5, [⟨1, Role.human, ['o', 'k'], 9⟩],
        false⟩ :=
  C10_reply_without_outstanding demoAH "h" ['o', 'k'] 9 demoSessH5
    (by decide) rfl rfl (by decide)

end TuringChat
